import Mathlib

/-!
# Verification of the annotation-pipeline task lifecycle

This development embeds the data model and operations of the
Smart Auto-Labeling annotation application: the task lifecycle
state machine, task selection queries, stats aggregation, the
client-portal feedback interface, and the annotator workspace
label-editing handlers.

Sources embedded directly:
- `frontend/src/types/index.ts` (TaskStatus, FeedbackAction, data records),
- `frontend/src/pages/ClientPortal.tsx` (feedback buttons, local updates),
- `frontend/src/pages/AnnotatorWorkspace.tsx` (entity add/remove handlers),
- `frontend/src/services/api.ts` (uploadDataset validation).

The backend lifecycle engine (FastAPI service) is not part of the
available sources; where a definition models it, its doc comment says
`Modelled from the spec:` and follows the specification text.
-/

namespace CacheMeOutside

/-- Task lifecycle states, from `frontend/src/types/index.ts` lines 24-32
(`enum TaskStatus`). -/
inductive TaskStatus where
  | uploaded
  | auto_labeled
  | in_review
  | reviewed
  | client_approved
  | client_rejected
  | completed
deriving DecidableEq, Repr

/-- Client feedback actions, from `frontend/src/types/index.ts` lines 34-38
(`enum FeedbackAction`): exactly three members. -/
inductive FeedbackAction where
  | approve
  | reject
  | correct
deriving DecidableEq, Repr

/-- A status is `reviewed` or a later state: the set
\x7breviewed, client_approved, client_rejected, completed\x7d. -/
def reviewedOrLater : TaskStatus → Bool
  | .reviewed => true
  | .client_approved => true
  | .client_rejected => true
  | .completed => true
  | _ => false

/-- A status is pending annotator work: `auto_labeled` or `in_review`. -/
def pendingStatus : TaskStatus → Bool
  | .auto_labeled => true
  | .in_review => true
  | _ => false

/-- Project task types (`ner`, `sentiment`, `classification`), from the
`task_type` strings used throughout the frontend. -/
inductive TaskType where
  | ner
  | sentiment
  | classification
deriving DecidableEq, Repr

/-- An entity span, from the workspace entity objects in
`AnnotatorWorkspace.tsx` (fields `class_name`, `start_index`, `end_index`,
`text`, `original_label`). -/
structure Entity where
  class_name : String
  start_index : Nat
  end_index : Nat
  text : String
  original_label : Option String := none
deriving DecidableEq, Repr

/-- Polymorphic label payload keyed by task type: for `ner` a list of entity
spans, for `sentiment` a primary label plus candidate scores, for
`classification` a primary category plus candidate scores. -/
inductive LabelPayload where
  | ner (entities : List Entity)
  | sentiment (label : String) (scores : List (String × Rat))
  | classification (category : String) (scores : List (String × Rat))
deriving DecidableEq, Repr

/-- A project record, from `frontend/src/types/index.ts` lines 1-10
(`interface Project`); timestamps omitted as they play no role in any
operation embedded here. -/
structure Project where
  id : Nat
  name : String
  description : String
  task_type : TaskType
  language : String
  entity_classes : List String
deriving DecidableEq, Repr

/-- A task record, from `frontend/src/types/index.ts` lines 12-22
(`interface Task`), plus the `confidence_score` field the pages read
(`task.confidence_score`). -/
structure Task where
  id : Nat
  project_id : Nat
  text : String
  auto_labels : Option LabelPayload := none
  final_labels : Option LabelPayload := none
  confidence_score : Option Rat := none
  status : TaskStatus
deriving DecidableEq, Repr

/-- A client feedback record, from `frontend/src/types/index.ts` lines 40-50
(`interface ClientFeedback`): its `action` field has type `FeedbackAction`. -/
structure Feedback where
  id : Nat
  project_id : Nat
  task_id : Nat
  action : FeedbackAction
  comment : Option String
  corrected_labels : Option LabelPayload
  client_name : String
  client_email : String
deriving DecidableEq, Repr

/-! ## Claim C3: actions submitted by the client feedback interface

`ClientPortal.tsx` lines 299-323 render three feedback buttons whose click
handlers call `handleFeedback` with `FeedbackAction.APPROVE`,
`FeedbackAction.REJECT`, and `FeedbackAction.REQUEST_CLARIFICATION`.
The last names a member that does not exist in the three-member
`FeedbackAction` enum of `types/index.ts`; a TypeScript build rejects it,
and with types erased it evaluates to `undefined` at runtime. A reference
to a missing enum member is embedded as `none`. -/

/-- The action argument of each of the three `handleFeedback` calls wired to
the ClientPortal feedback buttons, in source order
(`ClientPortal.tsx` lines 301, 309, 317). The third references
`FeedbackAction.REQUEST_CLARIFICATION`, absent from the enum, hence `none`. -/
def clientPortalButtonActions : List (Option FeedbackAction) :=
  [some FeedbackAction.approve, some FeedbackAction.reject, none]

/-! ## Claim C10: `uploadDataset` empty-file validation

From `frontend/src/services/api.ts` (`projectApi.uploadDataset`): the
function first runs a block of debug `console.log` calls that dereference
`file.name`, `file.size`, `file.type`, `file.lastModified`; then checks
`if (!file || file.size === 0) throw new Error('Invalid file: file is
empty or null')`; only then builds the FormData and posts
`/projects/{projectId}/upload`. For a `null` argument the debug
dereference `file.name` throws a `TypeError` before the validation line
is ever reached. -/

/-- A browser `File` value as seen by `uploadDataset`: name and size. -/
structure UploadFile where
  name : String
  size : Nat
deriving DecidableEq, Repr

/-- Possible outcomes of a call to `projectApi.uploadDataset`. -/
inductive UploadOutcome where
  /-- A `TypeError` thrown by dereferencing a property of `null`. -/
  | typeError
  /-- The thrown `Error('Invalid file: file is empty or null')`. -/
  | invalidFileError
  /-- The HTTP POST `/projects/{projectId}/upload` is issued. -/
  | httpRequest (projectId : Nat) (file : UploadFile)
deriving DecidableEq, Repr

/-- `projectApi.uploadDataset` from `frontend/src/services/api.ts` lines
24-57. A `null` file crashes in the debug logging
(`console.log('File name:', file.name)`, line 28) before the validation;
a non-null file of size 0 reaches the validation and throws the
`'Invalid file: file is empty or null'` error; otherwise the upload
request is issued. -/
def uploadDataset (projectId : Nat) (file : Option UploadFile) : UploadOutcome :=
  match file with
  | none => .typeError
  | some f => if f.size = 0 then .invalidFileError else .httpRequest projectId f

/-! ## Claim C9: workspace entity-editing handlers

From `AnnotatorWorkspace.tsx`: `handleRemoveEntity` (lines 184-199) and
`handleAddEntity` (lines 201-222) both rebuild the edited NER payload
with `entities := updatedEntities`, `entity_count := updatedEntities.length`
and `entity_types := Array.from(new Set(updatedEntities.map(ent =>
ent.class_name)))`. -/

/-- The edited NER label object manipulated by the workspace handlers:
`entities`, `entity_count`, `entity_types` (further spread fields of the
base payload do not interact with the handlers). -/
structure NerLabels where
  entities : List Entity
  entity_count : Nat
  entity_types : List String
deriving DecidableEq, Repr

/-- JavaScript `Array.from(new Set(xs))` on strings: deduplication keeping
the first occurrence of each element, in insertion order. -/
def jsSetOfStrings (l : List String) : List String :=
  l.foldl (fun acc x => if x ∈ acc then acc else acc ++ [x]) []

/-- The fresh entity inserted by `handleAddEntity`
(`AnnotatorWorkspace.tsx` lines 202-208). -/
def newEntity : Entity :=
  { class_name := "PER", start_index := 0, end_index := 0,
    text := "New Entity", original_label := some "PERSON" }

/-- `handleRemoveEntity` from `AnnotatorWorkspace.tsx` lines 184-199:
drops the entity at `entityIndex` and recomputes `entity_count` and
`entity_types` from the updated entity list. -/
def handleRemoveEntity (labels : NerLabels) (entityIndex : Nat) : NerLabels :=
  let updatedEntities :=
    (labels.entities.enum.filter (fun pr => decide (pr.1 ≠ entityIndex))).map Prod.snd
  { entities := updatedEntities,
    entity_count := updatedEntities.length,
    entity_types := jsSetOfStrings (updatedEntities.map Entity.class_name) }

/-- `handleAddEntity` from `AnnotatorWorkspace.tsx` lines 201-222:
appends `newEntity` and recomputes `entity_count` and `entity_types`
from the updated entity list. -/
def handleAddEntity (labels : NerLabels) : NerLabels :=
  let updatedEntities := labels.entities ++ [newEntity]
  { entities := updatedEntities,
    entity_count := updatedEntities.length,
    entity_types := jsSetOfStrings (updatedEntities.map Entity.class_name) }

/-- One annotator edit in the workspace: the add-entity button or the
remove button of the entity at a given index. -/
inductive NerEdit where
  | addEntity
  | removeEntity (index : Nat)
deriving DecidableEq, Repr

/-- Apply a single workspace edit to the edited payload. -/
def applyNerEdit (labels : NerLabels) : NerEdit → NerLabels
  | .addEntity => handleAddEntity labels
  | .removeEntity i => handleRemoveEntity labels i

/-- Apply a sequence of workspace edits, left to right. -/
def applyNerEdits (labels : NerLabels) (edits : List NerEdit) : NerLabels :=
  edits.foldl applyNerEdit labels

/-- Consistency of an edited NER payload: `entity_count` counts the
entities, and `entity_types` is the duplicate-free list of the distinct
`class_name` values of the entities. -/
def nerLabelsConsistent (labels : NerLabels) : Prop :=
  labels.entity_count = labels.entities.length ∧
  labels.entity_types.Nodup ∧
  ∀ s, s ∈ labels.entity_types ↔ s ∈ labels.entities.map Entity.class_name

/-! ### Helper lemmas about `jsSetOfStrings` -/

lemma jsSetOfStrings_aux (l acc : List String) (hacc : acc.Nodup) :
    (l.foldl (fun acc x => if x ∈ acc then acc else acc ++ [x]) acc).Nodup ∧
    ∀ a, a ∈ l.foldl (fun acc x => if x ∈ acc then acc else acc ++ [x]) acc ↔
      a ∈ acc ∨ a ∈ l := by
  induction l generalizing acc with
  | nil => simpa using hacc
  | cons x xs ih =>
    simp only [List.foldl_cons]
    by_cases hx : x ∈ acc
    · simp only [if_pos hx]
      refine ⟨(ih acc hacc).1, fun a => ?_⟩
      rw [(ih acc hacc).2 a]
      constructor
      · rintro (h | h)
        · exact Or.inl h
        · exact Or.inr (List.mem_cons_of_mem _ h)
      · rintro (h | h)
        · exact Or.inl h
        · rcases List.mem_cons.1 h with rfl | h
          · exact Or.inl hx
          · exact Or.inr h
    · simp only [if_neg hx]
      have hacc' : (acc ++ [x]).Nodup := by
        simp [List.nodup_append, hacc, hx]
      refine ⟨(ih _ hacc').1, fun a => ?_⟩
      rw [(ih _ hacc').2 a]
      simp only [List.mem_append, List.mem_singleton, List.mem_cons]
      tauto

lemma jsSetOfStrings_nodup (l : List String) : (jsSetOfStrings l).Nodup :=
  (jsSetOfStrings_aux l [] List.nodup_nil).1

lemma mem_jsSetOfStrings (l : List String) (a : String) :
    a ∈ jsSetOfStrings l ↔ a ∈ l := by
  rw [jsSetOfStrings, (jsSetOfStrings_aux l [] List.nodup_nil).2 a]
  simp

lemma applyNerEdit_consistent (labels : NerLabels) (e : NerEdit) :
    nerLabelsConsistent (applyNerEdit labels e) := by
  cases e with
  | addEntity =>
    refine ⟨rfl, jsSetOfStrings_nodup _, fun s => ?_⟩
    exact mem_jsSetOfStrings _ s
  | removeEntity i =>
    refine ⟨rfl, jsSetOfStrings_nodup _, fun s => ?_⟩
    exact mem_jsSetOfStrings _ s

/-! ## The Task Lifecycle Engine

Modelled from the spec: the backend lifecycle engine itself (the FastAPI
service) is not among the available sources — only its frontend callers
and type declarations are — so the engine's entry points below follow the
specification's §4.1 transition contracts. -/

/-- Modelled from the spec: the error taxonomy of §7 — `InvalidTransition`
(naming the current and attempted states), `InvalidLabelShape`,
`LabelingError`, `NotFound`. -/
inductive LifecycleError where
  | invalidTransition (current attempted : TaskStatus)
  | invalidLabelShape
  | labelingError
  | notFound
deriving DecidableEq, Repr

/-- Modelled from the spec: the Auto-Labeler collaborator's per-task outcome —
a label payload with a confidence score, or a `LabelingError` failure. -/
inductive AutoLabelResult where
  | success (payload : LabelPayload) (confidence : Rat)
  | failure
deriving DecidableEq, Repr

/-- Modelled from the spec: one invocation of a lifecycle-engine entry point
on a task (§4.1): `submit_for_labeling` (carrying the Auto-Labeler outcome),
claiming a task into `in_review`, `review`, `submit_client_feedback`, the
explicit re-queue of a `client_rejected` task, and the external close to
`completed`. -/
inductive Cmd where
  | submit_for_labeling (result : AutoLabelResult)
  | claim_task
  | review (finalLabels : LabelPayload)
  | submit_client_feedback (action : FeedbackAction) (correctedLabels : Option LabelPayload)
  | requeue_rejected
  | close_task
deriving DecidableEq, Repr

/-- Modelled from the spec: the status precondition of each entry point
(§4.1): `submit_for_labeling` requires `uploaded`; claiming requires
`auto_labeled`; `review` requires `auto_labeled` or `in_review`;
`submit_client_feedback` requires `reviewed` (or already
`client_approved`/`client_rejected`, repeated feedback being allowed);
re-queueing requires `client_rejected`; closing requires a reviewed-stage
status that is not yet `completed`. -/
def precond : Cmd → TaskStatus → Bool
  | .submit_for_labeling _, .uploaded => true
  | .claim_task, .auto_labeled => true
  | .review _, .auto_labeled => true
  | .review _, .in_review => true
  | .submit_client_feedback _ _, .reviewed => true
  | .submit_client_feedback _ _, .client_approved => true
  | .submit_client_feedback _ _, .client_rejected => true
  | .requeue_rejected, .client_rejected => true
  | .close_task, .reviewed => true
  | .close_task, .client_approved => true
  | .close_task, .client_rejected => true
  | _, _ => false

/-- Modelled from the spec: the status a command attempts to move the task
to, as named by an `InvalidTransition` error. -/
def cmdTarget : Cmd → TaskStatus
  | .submit_for_labeling _ => .auto_labeled
  | .claim_task => .in_review
  | .review _ => .reviewed
  | .submit_client_feedback .approve _ => .client_approved
  | .submit_client_feedback .reject _ => .client_rejected
  | .submit_client_feedback .correct _ => .client_approved
  | .requeue_rejected => .auto_labeled
  | .close_task => .completed

/-- Modelled from the spec: shape validation of a label payload against the
project's task type (§4.1 `review`): for `ner`, every entity's class must be
in the project's recognized set and its offsets valid within the task's
text; for the other task types the payload must be of the matching variant. -/
def validShape (p : Project) (t : Task) (l : LabelPayload) : Bool :=
  match p.task_type, l with
  | .ner, .ner entities =>
      entities.all fun e =>
        decide (e.class_name ∈ p.entity_classes) &&
        decide (e.start_index ≤ e.end_index) &&
        decide (e.end_index ≤ t.text.length)
  | .sentiment, .sentiment _ _ => true
  | .classification, .classification _ _ => true
  | _, _ => false

/-- Modelled from the spec: the transition semantics of the lifecycle engine
(§4.1). The status precondition is checked first; a command attempted from a
status outside its precondition fails with `InvalidTransition` naming the
current and attempted states. `submit_for_labeling` stores `auto_labels` and
the confidence and moves to `auto_labeled` (or reports the Auto-Labeler
failure, the task staying `uploaded`). `review` validates the payload shape
and on success stores `final_labels` and moves to `reviewed` in the same
step. `submit_client_feedback`: `approve` moves to `client_approved`,
`reject` to `client_rejected`, `correct` stores the corrected payload as the
new `final_labels` after the same shape validation as `review` and moves to
`client_approved`. The re-queue of a `client_rejected` task moves it back to
`auto_labeled`; `final_labels` is reset to null there, as forced by the §3/§8
invariant that `final_labels` is non-null exactly in the reviewed-or-later
states. Closing moves to `completed`. -/
def applyCmdOk : Project → Cmd → Task → Except LifecycleError Task
  | _, .submit_for_labeling (.success payload conf), t =>
      .ok { t with auto_labels := some payload, confidence_score := some conf,
                   status := .auto_labeled }
  | _, .submit_for_labeling .failure, _ => .error .labelingError
  | _, .claim_task, t => .ok { t with status := .in_review }
  | p, .review labels, t =>
      if validShape p t labels then
        .ok { t with final_labels := some labels, status := .reviewed }
      else .error .invalidLabelShape
  | _, .submit_client_feedback .approve _, t => .ok { t with status := .client_approved }
  | _, .submit_client_feedback .reject _, t => .ok { t with status := .client_rejected }
  | p, .submit_client_feedback .correct (some labels), t =>
      if validShape p t labels then
        .ok { t with final_labels := some labels, status := .client_approved }
      else .error .invalidLabelShape
  | _, .submit_client_feedback .correct none, _ => .error .invalidLabelShape
  | _, .requeue_rejected, t => .ok { t with status := .auto_labeled, final_labels := none }
  | _, .close_task, t => .ok { t with status := .completed }

/-- Modelled from the spec: a lifecycle-engine entry point first checks the
status precondition — a command attempted from a status outside it fails
with `InvalidTransition` naming the current and attempted states — and
otherwise performs the transition body `applyCmdOk`. -/
def applyCmd (p : Project) (cmd : Cmd) (t : Task) : Except LifecycleError Task :=
  if precond cmd t.status then applyCmdOk p cmd t
  else .error (.invalidTransition t.status (cmdTarget cmd))

/-- Modelled from the spec: §5 requires every transition to be a conditional
update — attempting a command and keeping the prior task value when it
fails. On failure the pair carries the untouched task and the error. -/
def tryCmd (p : Project) (cmd : Cmd) (t : Task) : Task × Option LifecycleError :=
  match applyCmd p cmd t with
  | .ok t' => (t', none)
  | .error e => (t, some e)

/-- Modelled from the spec: a Task is created once per unit of input text at
upload time (§3), in the initial `uploaded` status with both label payloads
null. -/
def mkUploadedTask (id project_id : Nat) (text : String) : Task :=
  { id := id, project_id := project_id, text := text, status := .uploaded }

/-- The labels invariant of spec §3/§8: `final_labels` is non-null exactly
when the status is `reviewed`, `client_approved`, `client_rejected` or
`completed`. -/
def labelsInv (t : Task) : Prop :=
  t.final_labels ≠ none ↔ reviewedOrLater t.status = true

instance (t : Task) : Decidable (labelsInv t) :=
  decidable_of_iff (t.final_labels ≠ none ↔ reviewedOrLater t.status = true) Iff.rfl

/-! ## Task selection queries -/

/-- Sort key for annotator prioritization: the task's confidence score
(absent scores sorting first, like a zero score). -/
def confKey (t : Task) : Rat :=
  t.confidence_score.getD 0

/-- Modelled from the spec: the default prioritization order of
`fetch_pending` (§4.1) — ascending confidence score, stable ascending task
id as the secondary key. -/
def pendingBefore (a b : Task) : Bool :=
  decide (confKey a < confKey b) ||
    (decide (confKey a = confKey b) && decide (a.id ≤ b.id))

/-- Insertion step of the prioritization sort. -/
def insertPending (a : Task) : List Task → List Task
  | [] => [a]
  | b :: bs => if pendingBefore a b then a :: b :: bs else b :: insertPending a bs

/-- Insertion sort by the prioritization order. -/
def sortPending (l : List Task) : List Task :=
  l.foldr insertPending []

/-- Modelled from the spec: `fetch_pending(project, annotator)` (§4.1)
returns the tasks of the given project with status `auto_labeled` or
`in_review` — all of them, regardless of confidence — ordered by the
advisory confidence prioritization. -/
def fetch_pending (tasks : List Task) (project_id : Nat) : List Task :=
  sortPending (tasks.filter fun t =>
    decide (t.project_id = project_id) && pendingStatus t.status)

/-- Modelled from the spec: `fetch_sample(project, limit)` (§4.1) returns up
to `limit` tasks of the project with status `reviewed` or later, in the
deterministic stored order. -/
def fetch_sample (tasks : List Task) (project_id : Nat) (limit : Nat) : List Task :=
  (tasks.filter fun t =>
    decide (t.project_id = project_id) && reviewedOrLater t.status).take limit

/-! ## Export -/

/-- Modelled from the spec: the serialized form of an exported task — its
identifier and text with its final label payload and status (§4.1
`export`). -/
structure ExportRecord where
  id : Nat
  text : String
  final_labels : Option LabelPayload
  status : TaskStatus
deriving DecidableEq, Repr

/-- Serialize one task for export. -/
def toExportRecord (t : Task) : ExportRecord :=
  { id := t.id, text := t.text, final_labels := t.final_labels, status := t.status }

/-- The entity-store state the engine operates on: the persisted tasks and
the append-only feedback records. -/
structure Store where
  tasks : List Task
  feedbacks : List Feedback
deriving DecidableEq, Repr

/-- Modelled from the spec: `export(project)` (§4.1) — a read-only,
side-effect-free operation returning every task of the project whose status
is `reviewed` or a later state, serialized with its final label payload and
status. The returned pair carries the result and the (unchanged) store. -/
def exportProject (s : Store) (project_id : Nat) : List ExportRecord × Store :=
  ((s.tasks.filter fun t =>
      decide (t.project_id = project_id) && reviewedOrLater t.status).map toExportRecord,
   s)

/-! ## Stats aggregation -/

/-- Modelled from the spec: the per-project read-only snapshot of §4.2 —
total task count, a count per status bucket, the completion rate and the
average confidence. The frontend `ProjectStats` interface
(`types/index.ts` lines 61-68) declares the `total_tasks`, `in_review`,
`reviewed`, `approved`, `rejected` and `completion_rate` fields;
`average_confidence` is additionally read by the Dashboard page. -/
structure ProjectStats where
  total_tasks : Nat
  uploaded : Nat
  auto_labeled : Nat
  in_review : Nat
  reviewed : Nat
  approved : Nat
  rejected : Nat
  completed : Nat
  completion_rate : Rat
  average_confidence : Rat
deriving DecidableEq, Repr

/-- Count the project tasks currently in one status bucket. -/
def countStatus (tasks : List Task) (st : TaskStatus) : Nat :=
  (tasks.filter fun t => decide (t.status = st)).length

/-- Modelled from the spec: the Stats Aggregator (§4.2) — purely derived
from the task list: total count, per-bucket counts, completion rate
`(reviewed + client_approved + client_rejected + completed) / total`, and
the average confidence across the tasks that have one; with zero tasks (or
no task carrying a confidence) the rates report 0 rather than an error. -/
def computeStats (tasks : List Task) : ProjectStats :=
  let total := tasks.length
  let done := countStatus tasks .reviewed + countStatus tasks .client_approved +
    countStatus tasks .client_rejected + countStatus tasks .completed
  let confs := tasks.filterMap Task.confidence_score
  { total_tasks := total
    uploaded := countStatus tasks .uploaded
    auto_labeled := countStatus tasks .auto_labeled
    in_review := countStatus tasks .in_review
    reviewed := countStatus tasks .reviewed
    approved := countStatus tasks .client_approved
    rejected := countStatus tasks .client_rejected
    completed := countStatus tasks .completed
    completion_rate := if total = 0 then 0 else (done : Rat) / (total : Rat)
    average_confidence :=
      if confs.length = 0 then 0 else confs.sum / (confs.length : Rat) }

/-! ### Precondition inversion lemmas -/

lemma precond_submit_for_labeling {r : AutoLabelResult} {s : TaskStatus}
    (h : precond (.submit_for_labeling r) s = true) : s = .uploaded := by
  cases s <;> simp_all [precond]

lemma precond_claim_task {s : TaskStatus}
    (h : precond .claim_task s = true) : s = .auto_labeled := by
  cases s <;> simp_all [precond]

lemma precond_review {L : LabelPayload} {s : TaskStatus}
    (h : precond (.review L) s = true) : s = .auto_labeled ∨ s = .in_review := by
  cases s <;> simp_all [precond]

lemma precond_submit_client_feedback {a : FeedbackAction} {c : Option LabelPayload}
    {s : TaskStatus} (h : precond (.submit_client_feedback a c) s = true) :
    s = .reviewed ∨ s = .client_approved ∨ s = .client_rejected := by
  cases s <;> simp_all [precond]

lemma precond_requeue_rejected {s : TaskStatus}
    (h : precond .requeue_rejected s = true) : s = .client_rejected := by
  cases s <;> simp_all [precond]

lemma precond_close_task {s : TaskStatus}
    (h : precond .close_task s = true) :
    s = .reviewed ∨ s = .client_approved ∨ s = .client_rejected := by
  cases s <;> simp_all [precond]

lemma applyCmd_ok_precond {p : Project} {cmd : Cmd} {t t' : Task}
    (h : applyCmd p cmd t = .ok t') : precond cmd t.status = true := by
  by_contra hp
  rw [applyCmd, if_neg (by simpa using hp)] at h
  exact Except.noConfusion h

/-! ### Invariant preservation -/

lemma labelsInv_final_none {t : Task} (hInv : labelsInv t)
    (h : reviewedOrLater t.status = false) : t.final_labels = none := by
  by_contra hc
  have := hInv.mp hc
  rw [h] at this
  exact Bool.noConfusion this

lemma applyCmd_preserves_labelsInv (p : Project) (cmd : Cmd) (t t' : Task)
    (hInv : labelsInv t) (h : applyCmd p cmd t = .ok t') : labelsInv t' := by
  have hpre := applyCmd_ok_precond h
  rw [applyCmd, if_pos hpre] at h
  cases cmd with
  | submit_for_labeling r =>
    have hs := precond_submit_for_labeling hpre
    have hnone : t.final_labels = none :=
      labelsInv_final_none hInv (by rw [hs]; rfl)
    cases r with
    | success payload conf =>
      simp only [applyCmdOk, Except.ok.injEq] at h
      subst h
      simp [labelsInv, reviewedOrLater, hnone]
    | failure => exact Except.noConfusion (h.symm.trans (by rw [applyCmdOk]))
  | claim_task =>
    have hs := precond_claim_task hpre
    have hnone : t.final_labels = none :=
      labelsInv_final_none hInv (by rw [hs]; rfl)
    simp only [applyCmdOk, Except.ok.injEq] at h
    subst h
    simp [labelsInv, reviewedOrLater, hnone]
  | review L =>
    simp only [applyCmdOk] at h
    split at h
    · simp only [Except.ok.injEq] at h
      subst h
      simp [labelsInv, reviewedOrLater]
    · exact Except.noConfusion h
  | submit_client_feedback a c =>
    have hs := precond_submit_client_feedback hpre
    have hsome : t.final_labels ≠ none := by
      apply hInv.mpr
      rcases hs with hs | hs | hs <;> rw [hs] <;> rfl
    cases a with
    | approve =>
      simp only [applyCmdOk, Except.ok.injEq] at h
      subst h
      simpa [labelsInv, reviewedOrLater] using hsome
    | reject =>
      simp only [applyCmdOk, Except.ok.injEq] at h
      subst h
      simpa [labelsInv, reviewedOrLater] using hsome
    | correct =>
      cases c with
      | some L =>
        simp only [applyCmdOk] at h
        split at h
        · simp only [Except.ok.injEq] at h
          subst h
          simp [labelsInv, reviewedOrLater]
        · exact Except.noConfusion h
      | none => exact Except.noConfusion (h.symm.trans (by rw [applyCmdOk]))
  | requeue_rejected =>
    simp only [applyCmdOk, Except.ok.injEq] at h
    subst h
    simp [labelsInv, reviewedOrLater]
  | close_task =>
    have hs := precond_close_task hpre
    have hsome : t.final_labels ≠ none := by
      apply hInv.mpr
      rcases hs with hs | hs | hs <;> rw [hs] <;> rfl
    simp only [applyCmdOk, Except.ok.injEq] at h
    subst h
    simpa [labelsInv, reviewedOrLater] using hsome

lemma applyCmd_reviewed_of_ok (p : Project) (cmd : Cmd) (t t' : Task)
    (h : applyCmd p cmd t = .ok t') (hst : t'.status = .reviewed) :
    ∃ L, cmd = .review L ∧ t'.final_labels = some L := by
  have hpre := applyCmd_ok_precond h
  rw [applyCmd, if_pos hpre] at h
  cases cmd with
  | submit_for_labeling r =>
    cases r with
    | success payload conf =>
      simp only [applyCmdOk, Except.ok.injEq] at h
      subst h
      simp at hst
    | failure => exact Except.noConfusion (h.symm.trans (by rw [applyCmdOk]))
  | claim_task =>
    simp only [applyCmdOk, Except.ok.injEq] at h
    subst h
    simp at hst
  | review L =>
    refine ⟨L, rfl, ?_⟩
    simp only [applyCmdOk] at h
    split at h
    · simp only [Except.ok.injEq] at h
      subst h
      rfl
    · exact Except.noConfusion h
  | submit_client_feedback a c =>
    cases a with
    | approve =>
      simp only [applyCmdOk, Except.ok.injEq] at h
      subst h
      simp at hst
    | reject =>
      simp only [applyCmdOk, Except.ok.injEq] at h
      subst h
      simp at hst
    | correct =>
      cases c with
      | some L =>
        simp only [applyCmdOk] at h
        split at h
        · simp only [Except.ok.injEq] at h
          subst h
          simp at hst
        · exact Except.noConfusion h
      | none => exact Except.noConfusion (h.symm.trans (by rw [applyCmdOk]))
  | requeue_rejected =>
    simp only [applyCmdOk, Except.ok.injEq] at h
    subst h
    simp at hst
  | close_task =>
    simp only [applyCmdOk, Except.ok.injEq] at h
    subst h
    simp at hst

/-! ### Query lemmas -/

lemma insertPending_perm (a : Task) (l : List Task) :
    (insertPending a l).Perm (a :: l) := by
  induction l with
  | nil => rfl
  | cons b bs ih =>
    rw [insertPending]
    split
    · rfl
    · exact (ih.cons b).trans (List.Perm.swap a b bs)

lemma sortPending_perm (l : List Task) : (sortPending l).Perm l := by
  induction l with
  | nil => rfl
  | cons a as ih =>
    exact (insertPending_perm a (sortPending as)).trans (ih.cons a)

lemma mem_fetch_pending (tasks : List Task) (project_id : Nat) (t : Task) :
    t ∈ fetch_pending tasks project_id ↔
      t ∈ tasks ∧ t.project_id = project_id ∧ pendingStatus t.status = true := by
  rw [fetch_pending, (sortPending_perm _).mem_iff, List.mem_filter]
  simp [and_assoc]

lemma mem_fetch_sample {tasks : List Task} {project_id limit : Nat} {t : Task}
    (h : t ∈ fetch_sample tasks project_id limit) :
    t.project_id = project_id ∧ reviewedOrLater t.status = true := by
  have := List.mem_filter.1 (List.take_subset _ _ h)
  simpa using this.2

lemma countStatus_eq_countP (tasks : List Task) (st : TaskStatus) :
    countStatus tasks st = tasks.countP (fun t => decide (t.status = st)) := by
  rw [countStatus, List.countP_eq_length_filter]

/-! ### Concrete scenario values (spec §8): project with task type `ner`,
recognized classes \x7bPER, LOC\x7d; task text "Paris is nice" auto-labeled with
entity \x7bclass: LOC, start 0, end 5, text "Paris"\x7d at confidence 0.9. -/

/-- The §8 scenario project: `ner`, recognized classes PER and LOC. -/
def exampleProject : Project :=
  { id := 1, name := "Demo NER", description := "", task_type := .ner,
    language := "en", entity_classes := ["PER", "LOC"] }

/-- The §8 scenario entity: LOC span "Paris" at offsets 0-5. -/
def parisEntity : Entity :=
  { class_name := "LOC", start_index := 0, end_index := 5, text := "Paris" }

/-- The §8 scenario payload: the single LOC entity. -/
def parisPayload : LabelPayload := .ner [parisEntity]

/-- The §8 scenario task after auto-labeling, at confidence 0.9. -/
def parisTaskAuto : Task :=
  { id := 7, project_id := 1, text := "Paris is nice",
    auto_labels := some parisPayload, confidence_score := some (9/10),
    status := .auto_labeled }

/-- The §8 scenario task after the annotator review. -/
def parisTaskReviewed : Task :=
  { parisTaskAuto with final_labels := some parisPayload, status := .reviewed }

/-- A second, still-pending task of the same project. -/
def berlinTaskAuto : Task :=
  { id := 8, project_id := 1, text := "Berlin is big",
    auto_labels := some (.ner [{ class_name := "LOC", start_index := 0,
                                 end_index := 6, text := "Berlin" }]),
    confidence_score := some (3/10), status := .auto_labeled }

/-- A two-task store with one reviewed and one still-pending task. -/
def exampleStore : Store :=
  { tasks := [parisTaskReviewed, berlinTaskAuto], feedbacks := [] }

/-! ## Claim theorems -/

/-- C1: For every task, `final_labels` is non-null if and only if the task's
status is one of `reviewed`, `client_approved`, `client_rejected`,
`completed`: the invariant holds of a freshly uploaded task (where
`final_labels` is null, and stays null until a review transition occurs) and
is preserved by every lifecycle transition; moreover every operation that
sets the status to `reviewed` is a `review` command, which stores
`final_labels` in the same step. -/
theorem final_labels_nonnull_iff_reviewed_stage :
    (∀ (id project_id : Nat) (text : String),
      labelsInv (mkUploadedTask id project_id text)) ∧
    (∀ (p : Project) (cmd : Cmd) (t t' : Task),
      labelsInv t → applyCmd p cmd t = .ok t' → labelsInv t') ∧
    (∀ (p : Project) (cmd : Cmd) (t t' : Task),
      applyCmd p cmd t = .ok t' → t'.status = .reviewed →
        ∃ L, cmd = .review L ∧ t'.final_labels = some L) := by
  refine ⟨fun id project_id text => ?_,
    applyCmd_preserves_labelsInv, applyCmd_reviewed_of_ok⟩
  simp [labelsInv, mkUploadedTask, reviewedOrLater]

/-- Witness for C1 at the §8 scenario: the reviewed Paris task produced by
`review` from the auto-labeled one satisfies the invariant, and the
transition that made it `reviewed` is a `review` carrying its labels. -/
theorem final_labels_nonnull_iff_reviewed_stage_witness :
    labelsInv parisTaskReviewed ∧
    ∃ L, Cmd.review parisPayload = Cmd.review L ∧
      parisTaskReviewed.final_labels = some L := by
  constructor
  · exact final_labels_nonnull_iff_reviewed_stage.2.1 exampleProject
      (.review parisPayload) parisTaskAuto parisTaskReviewed (by decide) (by rfl)
  · exact final_labels_nonnull_iff_reviewed_stage.2.2 exampleProject
      (.review parisPayload) parisTaskAuto parisTaskReviewed (by rfl) (by rfl)

/-- C2: For every task in status `reviewed`, `submit_client_feedback`
transitions it according to its action: `approve` moves it to
`client_approved`, `reject` to `client_rejected`, and `correct` stores the
submitted corrected labels as the new `final_labels` — subject to the same
`validShape` check as `review` — and moves it to `client_approved`. -/
theorem submit_client_feedback_from_reviewed (p : Project) (t : Task)
    (h : t.status = .reviewed) :
    (∀ c, applyCmd p (.submit_client_feedback .approve c) t =
      .ok { t with status := .client_approved }) ∧
    (∀ c, applyCmd p (.submit_client_feedback .reject c) t =
      .ok { t with status := .client_rejected }) ∧
    (∀ L, validShape p t L = true →
      applyCmd p (.submit_client_feedback .correct (some L)) t =
        .ok { t with final_labels := some L, status := .client_approved }) ∧
    (∀ L, validShape p t L = false →
      applyCmd p (.submit_client_feedback .correct (some L)) t =
        .error .invalidLabelShape) := by
  have hpre : ∀ (a : FeedbackAction) (c : Option LabelPayload),
      precond (.submit_client_feedback a c) t.status = true := by
    intro a c
    rw [h]
    rfl
  refine ⟨fun c => ?_, fun c => ?_, fun L hL => ?_, fun L hL => ?_⟩ <;>
    rw [applyCmd, if_pos (hpre _ _)]
  · rfl
  · rfl
  · simp [applyCmdOk, hL]
  · simp [applyCmdOk, hL]

/-- Witness for C2: the reviewed Paris task under an `approve` feedback. -/
theorem submit_client_feedback_from_reviewed_witness :
    applyCmd exampleProject (.submit_client_feedback .approve none)
      parisTaskReviewed = .ok { parisTaskReviewed with status := .client_approved } :=
  (submit_client_feedback_from_reviewed exampleProject parisTaskReviewed rfl).1 none

/-- C3 (code bug): the `FeedbackAction` enum has exactly the three members
`approve`, `reject`, `correct`, yet the ClientPortal feedback interface
wires a third button to `FeedbackAction.REQUEST_CLARIFICATION`
(`ClientPortal.tsx` line 317), a member absent from the enum — so the
interface submits an action outside the declared set. -/
theorem clientPortal_submits_action_outside_enum :
    ∃ a ∈ clientPortalButtonActions, ∀ f : FeedbackAction, a ≠ some f := by
  refine ⟨none, ?_, fun f h => Option.noConfusion h⟩
  simp [clientPortalButtonActions]

/-- C4: the stats snapshot reports the total task count, a count per status
bucket, a completion rate equal to
`(reviewed + client_approved + client_rejected + completed) / total`
(multiplying back by the total recovers the completed-stage count), and the
average of the confidence scores of the tasks that carry one; with zero
tasks both rates are 0 rather than an error. -/
theorem computeStats_correct (tasks : List Task) :
    (computeStats tasks).total_tasks = tasks.length ∧
    ((computeStats tasks).uploaded =
        tasks.countP (fun t => decide (t.status = .uploaded)) ∧
      (computeStats tasks).auto_labeled =
        tasks.countP (fun t => decide (t.status = .auto_labeled)) ∧
      (computeStats tasks).in_review =
        tasks.countP (fun t => decide (t.status = .in_review)) ∧
      (computeStats tasks).reviewed =
        tasks.countP (fun t => decide (t.status = .reviewed)) ∧
      (computeStats tasks).approved =
        tasks.countP (fun t => decide (t.status = .client_approved)) ∧
      (computeStats tasks).rejected =
        tasks.countP (fun t => decide (t.status = .client_rejected)) ∧
      (computeStats tasks).completed =
        tasks.countP (fun t => decide (t.status = .completed))) ∧
    (tasks ≠ [] → (computeStats tasks).completion_rate =
      ((countStatus tasks .reviewed + countStatus tasks .client_approved +
        countStatus tasks .client_rejected + countStatus tasks .completed : Nat) : Rat) /
        (tasks.length : Rat)) ∧
    (tasks ≠ [] → (computeStats tasks).completion_rate * (tasks.length : Rat) =
      ((countStatus tasks .reviewed + countStatus tasks .client_approved +
        countStatus tasks .client_rejected + countStatus tasks .completed : Nat) : Rat)) ∧
    (tasks.filterMap Task.confidence_score ≠ [] →
      (computeStats tasks).average_confidence *
          ((tasks.filterMap Task.confidence_score).length : Rat) =
        (tasks.filterMap Task.confidence_score).sum) ∧
    (tasks = [] →
      (computeStats tasks).completion_rate = 0 ∧
      (computeStats tasks).average_confidence = 0) := by
  refine ⟨rfl,
    ⟨(countStatus_eq_countP tasks _), (countStatus_eq_countP tasks _),
      (countStatus_eq_countP tasks _), (countStatus_eq_countP tasks _),
      (countStatus_eq_countP tasks _), (countStatus_eq_countP tasks _),
      (countStatus_eq_countP tasks _)⟩, ?_, ?_, ?_, ?_⟩
  · intro hne
    simp [computeStats, List.length_eq_zero.not.2 hne]
  · intro hne
    have hlen : (tasks.length : Rat) ≠ 0 := by
      exact_mod_cast fun h => hne (List.length_eq_zero.1 h)
    simp only [computeStats, List.length_eq_zero.not.2 hne, if_false]
    rw [div_mul_cancel₀ _ hlen]
  · intro hne
    have hlen : ((tasks.filterMap Task.confidence_score).length : Rat) ≠ 0 := by
      exact_mod_cast fun h => hne (List.length_eq_zero.1 h)
    simp only [computeStats, List.length_eq_zero.not.2 hne, if_false]
    rw [div_mul_cancel₀ _ hlen]
  · rintro rfl
    simp [computeStats]

/-- Witness for C4 at the two-task example store: the rates of the nonempty
task list and both rates of the empty list. -/
theorem computeStats_correct_witness :
    (computeStats exampleStore.tasks).completion_rate *
        ((exampleStore.tasks.length : Nat) : Rat) =
      ((countStatus exampleStore.tasks .reviewed +
        countStatus exampleStore.tasks .client_approved +
        countStatus exampleStore.tasks .client_rejected +
        countStatus exampleStore.tasks .completed : Nat) : Rat) ∧
    (computeStats ([] : List Task)).completion_rate = 0 ∧
    (computeStats ([] : List Task)).average_confidence = 0 := by
  refine ⟨(computeStats_correct exampleStore.tasks).2.2.2.1 (by decide), ?_, ?_⟩
  · exact ((computeStats_correct ([] : List Task)).2.2.2.2.2 rfl).1
  · exact ((computeStats_correct ([] : List Task)).2.2.2.2.2 rfl).2

/-- C5: a `reject` feedback on a reviewed task moves it to
`client_rejected`; from `client_rejected` the explicit re-queue transition
always succeeds (never a dead-end) and returns the task to `auto_labeled`;
and a task whose status is `auto_labeled` never appears in `fetch_sample`
results — it stays out of the client sample until it is `reviewed` again. -/
theorem client_rejected_requeue_loop (p : Project) :
    (∀ (t : Task) (c : Option LabelPayload), t.status = .reviewed →
      applyCmd p (.submit_client_feedback .reject c) t =
        .ok { t with status := .client_rejected }) ∧
    (∀ t : Task, t.status = .client_rejected →
      applyCmd p .requeue_rejected t =
        .ok { t with status := .auto_labeled, final_labels := none }) ∧
    (∀ (tasks : List Task) (project_id limit : Nat) (t : Task),
      t.status = .auto_labeled → t ∉ fetch_sample tasks project_id limit) := by
  refine ⟨fun t c h => ?_, fun t h => ?_, fun tasks project_id limit t h hmem => ?_⟩
  · rw [applyCmd, if_pos (by rw [h]; rfl)]
    rfl
  · rw [applyCmd, if_pos (by rw [h]; rfl)]
    rfl
  · have := (mem_fetch_sample hmem).2
    rw [h] at this
    exact Bool.noConfusion this

/-- Witness for C5: the §8 reject scenario on the concrete reviewed Paris
task, its re-queue, and its absence from the example store's sample. -/
theorem client_rejected_requeue_loop_witness :
    applyCmd exampleProject (.submit_client_feedback .reject none)
        parisTaskReviewed =
      .ok { parisTaskReviewed with status := .client_rejected } ∧
    applyCmd exampleProject .requeue_rejected
        { parisTaskReviewed with status := .client_rejected } =
      .ok { parisTaskReviewed with
              status := .auto_labeled, final_labels := none } ∧
    berlinTaskAuto ∉ fetch_sample exampleStore.tasks 1 20 := by
  refine ⟨(client_rejected_requeue_loop exampleProject).1 parisTaskReviewed none rfl,
    (client_rejected_requeue_loop exampleProject).2.1
      { parisTaskReviewed with status := .client_rejected } rfl,
    (client_rejected_requeue_loop exampleProject).2.2
      exampleStore.tasks 1 20 berlinTaskAuto rfl⟩

/-- C6: `export(project)` returns exactly the serializations of the
project's tasks whose status is `reviewed` or later, each carrying its final
label payload and status; whenever the store satisfies the labels invariant
no returned record has a null `final_labels`; and the operation is read-only
and idempotent — it leaves the store unchanged and a repeated call returns
the same result. -/
theorem exportProject_correct (s : Store) (project_id : Nat) :
    (exportProject s project_id).2 = s ∧
    (exportProject (exportProject s project_id).2 project_id).1 =
      (exportProject s project_id).1 ∧
    (∀ r ∈ (exportProject s project_id).1, reviewedOrLater r.status = true) ∧
    ((∀ t ∈ s.tasks, labelsInv t) →
      ∀ r ∈ (exportProject s project_id).1, r.final_labels ≠ none) ∧
    (∀ r, r ∈ (exportProject s project_id).1 ↔
      ∃ t ∈ s.tasks, t.project_id = project_id ∧
        reviewedOrLater t.status = true ∧ r = toExportRecord t) := by
  refine ⟨rfl, rfl, fun r hr => ?_, fun hinv r hr => ?_, fun r => ?_⟩
  · rcases List.mem_map.1 hr with ⟨t, ht, rfl⟩
    have hb := List.of_mem_filter ht
    simp only [Bool.and_eq_true] at hb
    exact hb.2
  · rcases List.mem_map.1 hr with ⟨t, ht, rfl⟩
    have hmem := List.mem_of_mem_filter ht
    have hrev : reviewedOrLater t.status = true := by
      have hb := List.of_mem_filter ht
      simp only [Bool.and_eq_true] at hb
      exact hb.2
    exact (hinv t hmem).mpr hrev
  · rw [exportProject]
    simp only [List.mem_map, List.mem_filter, Bool.and_eq_true, decide_eq_true_eq]
    constructor
    · rintro ⟨t, ⟨ht, hpid, hrev⟩, rfl⟩
      exact ⟨t, ht, hpid, hrev, rfl⟩
    · rintro ⟨t, ht, hpid, hrev, rfl⟩
      exact ⟨t, ⟨ht, hpid, hrev⟩, rfl⟩

/-- Witness for C6 at the example store (whose two tasks satisfy the labels
invariant): no exported record has null `final_labels`. -/
theorem exportProject_correct_witness :
    ∀ r ∈ (exportProject exampleStore 1).1, r.final_labels ≠ none :=
  (exportProject_correct exampleStore 1).2.2.2.1 (by decide)

/-- C7: `fetch_pending` returns a permutation of the project's tasks whose
status is `auto_labeled` or `in_review` — so a task's membership is fully
determined by the task list, the project and the status, and never depends
on its confidence score, which only drives the advisory ordering. -/
theorem fetch_pending_never_gates_on_confidence (tasks : List Task)
    (project_id : Nat) :
    (fetch_pending tasks project_id).Perm
      (tasks.filter fun t =>
        decide (t.project_id = project_id) && pendingStatus t.status) ∧
    ∀ t, t ∈ fetch_pending tasks project_id ↔
      t ∈ tasks ∧ t.project_id = project_id ∧ pendingStatus t.status = true :=
  ⟨sortPending_perm _, fun t => mem_fetch_pending tasks project_id t⟩

/-- Witness for C7: in the example store both the low-confidence Berlin task
and the reviewed Paris task are classified as the characterization says. -/
theorem fetch_pending_never_gates_on_confidence_witness :
    berlinTaskAuto ∈ fetch_pending exampleStore.tasks 1 ∧
    parisTaskReviewed ∉ fetch_pending exampleStore.tasks 1 := by
  constructor
  · exact ((fetch_pending_never_gates_on_confidence exampleStore.tasks 1).2
      berlinTaskAuto).2
      ⟨List.mem_cons_of_mem _ (List.mem_cons_self _ _), rfl, rfl⟩
  · intro hmem
    have := ((fetch_pending_never_gates_on_confidence exampleStore.tasks 1).2
      parisTaskReviewed).1 hmem
    exact absurd this.2.2 (by decide)

/-- C8: attempting any lifecycle entry point from a status outside its
precondition fails with `InvalidTransition` naming the current and the
attempted state, and the conditional update leaves the task completely
unchanged: status, `auto_labels` and `final_labels` keep their prior
values. -/
theorem invalid_transition_fails_and_leaves_task_unchanged (p : Project)
    (cmd : Cmd) (t : Task) (h : precond cmd t.status = false) :
    applyCmd p cmd t =
      .error (.invalidTransition t.status (cmdTarget cmd)) ∧
    tryCmd p cmd t = (t, some (.invalidTransition t.status (cmdTarget cmd))) ∧
    (tryCmd p cmd t).1.status = t.status ∧
    (tryCmd p cmd t).1.auto_labels = t.auto_labels ∧
    (tryCmd p cmd t).1.final_labels = t.final_labels := by
  have h1 : applyCmd p cmd t =
      .error (.invalidTransition t.status (cmdTarget cmd)) := by
    rw [applyCmd, if_neg (by simp [h])]
  have h2 : tryCmd p cmd t =
      (t, some (.invalidTransition t.status (cmdTarget cmd))) := by
    rw [tryCmd, h1]
  exact ⟨h1, h2, by rw [h2], by rw [h2], by rw [h2]⟩

/-- Witness for C8: reviewing an already-`client_approved` task through the
`review` entry point fails with `InvalidTransition client_approved reviewed`
and the conditional update returns the task unchanged. -/
theorem invalid_transition_fails_and_leaves_task_unchanged_witness :
    applyCmd exampleProject (.review parisPayload)
        { parisTaskReviewed with status := .client_approved } =
      .error (.invalidTransition .client_approved .reviewed) ∧
    tryCmd exampleProject (.review parisPayload)
        { parisTaskReviewed with status := .client_approved } =
      ({ parisTaskReviewed with status := .client_approved },
        some (.invalidTransition .client_approved .reviewed)) := by
  have h := invalid_transition_fails_and_leaves_task_unchanged exampleProject
    (.review parisPayload) { parisTaskReviewed with status := .client_approved }
    (by rfl)
  exact ⟨h.1, h.2.1⟩

/-- C9: after any (at least one) sequence of add-entity and remove-entity
edits in the annotator workspace, the edited payload's `entity_count` equals
the length of its `entities` list and `entity_types` is precisely the set of
distinct `class_name` values of those entities (duplicate-free and with the
same members). -/
theorem workspace_edits_keep_entity_fields_consistent (labels : NerLabels)
    (e : NerEdit) (edits : List NerEdit) :
    nerLabelsConsistent (applyNerEdits labels (e :: edits)) := by
  induction edits generalizing labels e with
  | nil => exact applyNerEdit_consistent labels e
  | cons e' es ih => exact ih (applyNerEdit labels e) e'

/-- C10 (code bug): `uploadDataset` called with a `null` file throws a
`TypeError` in its debug logging before the `'Invalid file: file is empty or
null'` validation is reached, while a non-null file of size 0 does throw
that validation error; in every case no HTTP upload request is issued for a
null or empty file — a request only ever goes out for a non-null file of
positive size. -/
theorem uploadDataset_empty_file_never_reaches_server :
    uploadDataset 1 none = .typeError ∧
    uploadDataset 1 (some { name := "data.csv", size := 0 }) =
      .invalidFileError ∧
    (∀ (projectId : Nat) (file : Option UploadFile),
      uploadDataset projectId file = .typeError ∨
      uploadDataset projectId file = .invalidFileError ∨
      ∃ uf, file = some uf ∧ uf.size ≠ 0 ∧
        uploadDataset projectId file = .httpRequest projectId uf) := by
  refine ⟨rfl, rfl, fun projectId file => ?_⟩
  cases file with
  | none => exact Or.inl rfl
  | some uf =>
    by_cases hsz : uf.size = 0
    · exact Or.inr (Or.inl (by simp [uploadDataset, hsz]))
    · exact Or.inr (Or.inr ⟨uf, rfl, hsz, by simp [uploadDataset, hsz]⟩)

end CacheMeOutside
